import Mathlib

/-!
Verification of the sampling-audit core of the gpx-correction-pipeline
repository: the `auditSampling` pass (time-delta / distance-delta series
derivation over GPX points, src/js/sampling-audit.js, counter-instrumented
version) and the density-estimation module (`computeKDE`, `detectPeaks`).

Modelling conventions:
* JS numbers are embedded as real numbers `ℝ`; parsed timestamps
  (millisecond instants produced by `Date.parse`) as integers `ℤ`.
  A `Point`'s `time` field is `some t` iff its `timeRaw` string is present
  and `Date.parse` yields the finite instant `t`; `none` covers both an
  absent `timeRaw` and an unparseable one (`Date.parse` returning `NaN`) —
  the audited code only ever branches on exactly that disjunction.
* `isFinite` guards in the source are vacuously true in this embedding:
  every value of type `ℝ` is finite, and the audited quantities
  (haversine distances of real coordinates, differences of parsed
  timestamps) are finite in the source as well.
* The KDE curve coordinates are embedded as `Option ℝ`, `none` playing the
  role of the IEEE `NaN` that the source produces on a degenerate grid
  (`numPoints = 1`, where it evaluates `0 / 0`).  Real division by zero
  in the grid formula can only arise there, so `none` is produced exactly
  when `numPoints = 1`.
-/

open Classical

/-- A GPX point as consumed by `auditSampling`: validated coordinates plus
the parse outcome of its raw timestamp (see the modelling conventions). -/
structure Point where
  lat : ℝ
  lon : ℝ
  time : Option ℤ

instance : Inhabited Point := ⟨⟨0, 0, none⟩⟩

/-- JS `Math.atan2 y x` on real arguments. -/
noncomputable def atan2 (y x : ℝ) : ℝ :=
  if 0 < x then Real.arctan (y / x)
  else if x < 0 then
    (if 0 ≤ y then Real.arctan (y / x) + Real.pi else Real.arctan (y / x) - Real.pi)
  else
    (if 0 < y then Real.pi / 2 else if y < 0 then -(Real.pi / 2) else 0)

/-- Function `haversineDistance` from src/js/sampling-audit.js: great-circle distance
in meters between two coordinates given in degrees. -/
noncomputable def haversineDistance (lat1 lon1 lat2 lon2 : ℝ) : ℝ :=
  let R : ℝ := 6371000
  let dLat := (lat2 - lat1) * Real.pi / 180
  let dLon := (lon2 - lon1) * Real.pi / 180
  let a := Real.sin (dLat / 2) * Real.sin (dLat / 2) +
      Real.cos (lat1 * Real.pi / 180) * Real.cos (lat2 * Real.pi / 180) *
      Real.sin (dLon / 2) * Real.sin (dLon / 2)
  let c := 2 * atan2 (Real.sqrt a) (Real.sqrt (1 - a))
  R * c

/-- One record of the non-positive-delta event log
(`nonPositiveTimeDeltaEvents` entries `{index, prevIndex, delta}`). -/
structure NPEvent where
  index : ℕ
  prevIndex : Option ℕ
  delta : ℤ
deriving DecidableEq

/-- A joint time-distance pair `{dtSec, ddMeters}`. -/
structure TDPair where
  dtSec : ℝ
  ddMeters : ℝ

/-- The mutable locals of the primary pass of `auditSampling`, in source
declaration order. -/
structure AuditState where
  timeDeltasMs : List ℤ
  distanceDeltasMTimeConditioned : List ℝ
  distanceDeltasMGeometryOnly : List ℝ
  previousTimestampMs : Option ℤ
  previousPoint : Option (ℝ × ℝ)
  hasTimeProgression : Bool
  timestampedPointsCount : ℕ
  consecutiveTimestampPairsCount : ℕ
  positiveTimeDeltasCollected : ℕ
  rejectedTimestampPairsDeltaLeqZero : ℕ
  nonPositiveTimeDeltaEvents : List NPEvent
  consecutivePointPairsConsidered : ℕ
  rejectedDistanceInvalidOrZero : ℕ
  previousTimestampIndex : Option ℕ

/-- Initial values of the primary-pass locals. -/
def auditInit : AuditState :=
  { timeDeltasMs := []
    distanceDeltasMTimeConditioned := []
    distanceDeltasMGeometryOnly := []
    previousTimestampMs := none
    previousPoint := none
    hasTimeProgression := false
    timestampedPointsCount := 0
    consecutiveTimestampPairsCount := 0
    positiveTimeDeltasCollected := 0
    rejectedTimestampPairsDeltaLeqZero := 0
    nonPositiveTimeDeltaEvents := []
    consecutivePointPairsConsidered := 0
    rejectedDistanceInvalidOrZero := 0
    previousTimestampIndex := none }

/-- Geometry-only distance block of the primary loop body: for every
consecutive pair (any timestamp status) count the pair and either store the
haversine distance (finite and `> 0`) or count the rejection. -/
noncomputable def geomUpdate (s : AuditState) (p : Point) : AuditState :=
  match s.previousPoint with
  | none => s
  | some pp =>
    let s' := { s with consecutivePointPairsConsidered :=
                  s.consecutivePointPairsConsidered + 1 }
    let distance := haversineDistance pp.1 pp.2 p.lat p.lon
    if 0 < distance then
      { s' with distanceDeltasMGeometryOnly :=
          s'.distanceDeltasMGeometryOnly ++ [distance] }
    else
      { s' with rejectedDistanceInvalidOrZero :=
          s'.rejectedDistanceInvalidOrZero + 1 }

/-- Time-delta / time-conditioned-distance block of the primary loop body. -/
noncomputable def timeUpdate (s : AuditState) (i : ℕ) (p : Point) : AuditState :=
  match p.time with
  | none => s
  | some t =>
    let s1 := { s with timestampedPointsCount := s.timestampedPointsCount + 1 }
    let s2 :=
      match s1.previousTimestampMs with
      | none => s1
      | some pt =>
        let s1' := { s1 with consecutiveTimestampPairsCount :=
                       s1.consecutiveTimestampPairsCount + 1 }
        let delta : ℤ := t - pt
        if 0 < delta then
          let s1'' := { s1' with
            positiveTimeDeltasCollected := s1'.positiveTimeDeltasCollected + 1
            timeDeltasMs := s1'.timeDeltasMs ++ [delta]
            hasTimeProgression := true }
          match s1''.previousPoint with
          | none => s1''
          | some pp =>
            let distance := haversineDistance pp.1 pp.2 p.lat p.lon
            if 0 < distance then
              { s1'' with distanceDeltasMTimeConditioned :=
                  s1''.distanceDeltasMTimeConditioned ++ [distance] }
            else s1''
        else
          { s1' with
            rejectedTimestampPairsDeltaLeqZero :=
              s1'.rejectedTimestampPairsDeltaLeqZero + 1
            nonPositiveTimeDeltaEvents :=
              s1'.nonPositiveTimeDeltaEvents ++
                [NPEvent.mk i s1'.previousTimestampIndex delta] }
    { s2 with previousTimestampMs := some t, previousTimestampIndex := some i }

/-- One iteration of the primary loop of `auditSampling` at index `i`:
geometry block, then time block, then the unconditional `previousPoint`
update at the end of the loop body. -/
noncomputable def auditStep (s : AuditState) (i : ℕ) (p : Point) : AuditState :=
  let sg := geomUpdate s p
  let st := timeUpdate sg i p
  { st with previousPoint := some (p.lat, p.lon) }

/-- The primary loop: `for (let i = 0; i < points.length; i++)`. -/
noncomputable def auditRun : ℕ → AuditState → List Point → AuditState
  | _, s, [] => s
  | i, s, p :: rest => auditRun (i + 1) (auditStep s i p) rest

/-- The mutable locals of the joint time-distance pass. -/
structure JointState where
  timeDistancePairs : List TDPair
  prevPoint : Option (ℝ × ℝ)
  prevTimestampMs : Option ℤ
  jointConsecutivePairsInspected : ℕ
  jointPairsWithBothTimestamps : ℕ
  jointRejectedMissingTimestamp : ℕ
  jointRejectedNonPositiveDt : ℕ
  jointRejectedInvalidOrZeroDistance : ℕ
  jointValidPairsCollected : ℕ

/-- Initial values of the joint-pass locals. -/
def jointInit : JointState :=
  { timeDistancePairs := []
    prevPoint := none
    prevTimestampMs := none
    jointConsecutivePairsInspected := 0
    jointPairsWithBothTimestamps := 0
    jointRejectedMissingTimestamp := 0
    jointRejectedNonPositiveDt := 0
    jointRejectedInvalidOrZeroDistance := 0
    jointValidPairsCollected := 0 }

/-- One iteration of the joint time-distance pass.  `prevPoint` /
`prevTimestampMs` are updated only when the current point has a valid
timestamp (source lines: the final `if (currentTimestampMs !== null)`). -/
noncomputable def jointStep (s : JointState) (p : Point) : JointState :=
  let s1 :=
    if s.prevPoint.isSome then
      { s with jointConsecutivePairsInspected :=
          s.jointConsecutivePairsInspected + 1 }
    else s
  let s2 :=
    match p.time, s1.prevTimestampMs, s1.prevPoint with
    | some t, some pt, some pp =>
      let s1' := { s1 with jointPairsWithBothTimestamps :=
                     s1.jointPairsWithBothTimestamps + 1 }
      let dtMs : ℤ := t - pt
      let dtSec : ℝ := (dtMs : ℝ) / 1000
      let ddMeters := haversineDistance pp.1 pp.2 p.lat p.lon
      if 0 < dtSec ∧ 0 < ddMeters then
        { s1' with
          jointValidPairsCollected := s1'.jointValidPairsCollected + 1
          timeDistancePairs := s1'.timeDistancePairs ++ [TDPair.mk dtSec ddMeters] }
      else
        let s1'' :=
          if dtSec ≤ 0 then
            { s1' with jointRejectedNonPositiveDt :=
                s1'.jointRejectedNonPositiveDt + 1 }
          else s1'
        if ddMeters ≤ 0 then
          { s1'' with jointRejectedInvalidOrZeroDistance :=
              s1''.jointRejectedInvalidOrZeroDistance + 1 }
        else s1''
    | _, _, _ =>
      if s1.prevPoint.isSome then
        { s1 with jointRejectedMissingTimestamp :=
            s1.jointRejectedMissingTimestamp + 1 }
      else s1
  match p.time with
  | some t => { s2 with prevPoint := some (p.lat, p.lon),
                        prevTimestampMs := some t }
  | none => s2

/-- The joint-pass loop over all points. -/
noncomputable def jointRun : JointState → List Point → JointState
  | s, [] => s
  | s, p :: rest => jointRun (jointStep s p) rest

/-- The fields of the object returned by `auditSampling` that this
development reasons about (statistics and export mechanics omitted). -/
structure AuditResult where
  timeDeltasMs : List ℤ
  distanceDeltasM : List ℝ
  distanceDeltasMGeometryOnly : List ℝ
  distanceDeltasMTimeConditioned : List ℝ
  timeDistancePairs : List TDPair
  hasTimeProgression : Bool
  hasValidTimestamps : Bool
  rejectedTimestampPairsDeltaLeqZero : ℕ
  consecutivePointPairsConsidered : ℕ
  rejectedDistanceInvalidOrZero : ℕ
  jointPairsWithBothTimestamps : ℕ
  jointRejectedMissingTimestamp : ℕ
  jointRejectedNonPositiveDt : ℕ
  jointRejectedInvalidOrZeroDistance : ℕ
  nonPositiveTimeDeltaEvents : List NPEvent

/-- Function `auditSampling` (counter-instrumented version of
src/js/sampling-audit.js): presence scan, primary pass, primary distance
series selection, joint pass (only under `hasTimeProgression`), result
assembly. -/
noncomputable def auditSampling (points : List Point) : AuditResult :=
  let hasValidTimestamps := points.any (fun p => p.time.isSome)
  let s := auditRun 0 auditInit points
  let j := if s.hasTimeProgression then jointRun jointInit points else jointInit
  { timeDeltasMs := s.timeDeltasMs
    distanceDeltasM :=
      if s.hasTimeProgression then s.distanceDeltasMTimeConditioned
      else s.distanceDeltasMGeometryOnly
    distanceDeltasMGeometryOnly := s.distanceDeltasMGeometryOnly
    distanceDeltasMTimeConditioned := s.distanceDeltasMTimeConditioned
    timeDistancePairs := j.timeDistancePairs
    hasTimeProgression := s.hasTimeProgression
    hasValidTimestamps := hasValidTimestamps
    rejectedTimestampPairsDeltaLeqZero := s.rejectedTimestampPairsDeltaLeqZero
    consecutivePointPairsConsidered := s.consecutivePointPairsConsidered
    rejectedDistanceInvalidOrZero := s.rejectedDistanceInvalidOrZero
    jointPairsWithBothTimestamps := j.jointPairsWithBothTimestamps
    jointRejectedMissingTimestamp := j.jointRejectedMissingTimestamp
    jointRejectedNonPositiveDt := j.jointRejectedNonPositiveDt
    jointRejectedInvalidOrZeroDistance := j.jointRejectedInvalidOrZeroDistance
    nonPositiveTimeDeltaEvents := s.nonPositiveTimeDeltaEvents }

/-- A point of a KDE density curve.  Coordinates are `Option ℝ`; `none`
models the IEEE `NaN` the source produces on the degenerate one-point grid. -/
structure KDEPoint where
  xLog : Option ℝ
  xLinear : Option ℝ
  y : Option ℝ

instance : Inhabited KDEPoint := ⟨⟨none, none, none⟩⟩

/-- The defensive input filter of `computeKDE`:
`data.filter(d => d > 0 && isFinite(d))` (finiteness is vacuous over `ℝ`). -/
noncomputable def validOf (data : List ℝ) : List ℝ :=
  data.filter (fun d => decide (0 < d))

/-- JS `Math.min(...l)` over a nonempty list (`0` for `[]`, unreachable in
`computeKDE` behind its emptiness guard). -/
noncomputable def listMin : List ℝ → ℝ
  | [] => 0
  | x :: xs => xs.foldl min x

/-- JS `Math.max(...l)` over a nonempty list (`0` for `[]`, unreachable in
`computeKDE` behind its emptiness guard). -/
noncomputable def listMax : List ℝ → ℝ
  | [] => 0
  | x :: xs => xs.foldl max x

/-- Minimum of the natural logs of the filtered data
(`minLog` / grid bound `xMinLog` in `computeKDE`). -/
noncomputable def logMinOf (data : List ℝ) : ℝ :=
  listMin ((validOf data).map Real.log)

/-- Maximum of the natural logs of the filtered data
(`maxLog` / grid bound `xMaxLog` in `computeKDE`). -/
noncomputable def logMaxOf (data : List ℝ) : ℝ :=
  listMax ((validOf data).map Real.log)

/-- Function `computeKDE` from the KDE visualization module: filter the data to
positive finite values, work on their natural logs, evaluate the Gaussian
kernel sum on a `numPoints`-point grid spanning exactly
`[min(ln data), max(ln data)]`.  The grid position is
`xMin + (xMax - xMin) * (i / (numPoints - 1))`; for `numPoints = 1` the
source divides `0 / 0`, which this embedding records as `none` (`NaN`). -/
noncomputable def computeKDE (data : List ℝ) (bandwidth : ℝ)
    (numPoints : ℕ := 200) : List KDEPoint :=
  let validData := validOf data
  if validData.length = 0 then []
  else
    let validDataLog := validData.map Real.log
    let xMinLog := listMin validDataLog
    let xMaxLog := listMax validDataLog
    let n := validDataLog.length
    let h := bandwidth
    let normalization := 1 / ((n : ℝ) * h * Real.sqrt (2 * Real.pi))
    (List.range numPoints).map (fun (i : ℕ) =>
      let xLog : Option ℝ :=
        if numPoints = 1 then none
        else some (xMinLog + (xMaxLog - xMinLog) * ((i : ℝ) / ((numPoints : ℝ) - 1)))
      let density : Option ℝ := xLog.map (fun xl =>
        normalization *
          (validDataLog.foldl (fun acc dj =>
            let u := (xl - dj) / h
            acc + Real.exp (-(0.5) * u * u)) 0))
      { xLog := xLog, xLinear := xLog.map Real.exp, y := density })

/-- JS strict `>` on curve `y` values read in the peak test, with `NaN`
semantics: a comparison touching `NaN` (`none`) is false. -/
noncomputable def jsLtB (a b : Option ℝ) : Bool :=
  match a, b with
  | some x, some y => decide (x < y)
  | _, _ => false

/-- Function `detectPeaks` from the KDE visualization module: curves shorter than 3
have no peaks; otherwise the loop `for (i = 1; i < length - 1; i++)`
collects every interior point strictly greater than both neighbours. -/
noncomputable def detectPeaks (c : List KDEPoint) : List KDEPoint :=
  if c.length < 3 then []
  else
    ((List.range' 1 (c.length - 2)).filter (fun i =>
        jsLtB (c.getD (i - 1) default).y (c.getD i default).y &&
        jsLtB (c.getD (i + 1) default).y (c.getD i default).y)).map
      (fun i =>
        { xLog := (c.getD i default).xLog
          xLinear := (c.getD i default).xLinear
          y := (c.getD i default).y })

/-! ### Equation lemmas for the primary-pass loop body -/

lemma geomUpdate_none (s : AuditState) (p : Point)
    (h : s.previousPoint = none) : geomUpdate s p = s := by
  unfold geomUpdate; rw [h]

lemma geomUpdate_pos (s : AuditState) (p : Point) (pp : ℝ × ℝ)
    (h : s.previousPoint = some pp)
    (hd : 0 < haversineDistance pp.1 pp.2 p.lat p.lon) :
    geomUpdate s p =
      { s with
        consecutivePointPairsConsidered := s.consecutivePointPairsConsidered + 1
        distanceDeltasMGeometryOnly :=
          s.distanceDeltasMGeometryOnly ++
            [haversineDistance pp.1 pp.2 p.lat p.lon] } := by
  unfold geomUpdate; rw [h]; simp only [if_pos hd]

lemma geomUpdate_nonpos (s : AuditState) (p : Point) (pp : ℝ × ℝ)
    (h : s.previousPoint = some pp)
    (hd : ¬ 0 < haversineDistance pp.1 pp.2 p.lat p.lon) :
    geomUpdate s p =
      { s with
        consecutivePointPairsConsidered := s.consecutivePointPairsConsidered + 1
        rejectedDistanceInvalidOrZero := s.rejectedDistanceInvalidOrZero + 1 } := by
  unfold geomUpdate; rw [h]; simp only [if_neg hd]

lemma timeUpdate_none (s : AuditState) (i : ℕ) (p : Point)
    (h : p.time = none) : timeUpdate s i p = s := by
  unfold timeUpdate; rw [h]

lemma timeUpdate_first (s : AuditState) (i : ℕ) (p : Point) (t : ℤ)
    (h : p.time = some t) (h2 : s.previousTimestampMs = none) :
    timeUpdate s i p =
      { s with
        timestampedPointsCount := s.timestampedPointsCount + 1
        previousTimestampMs := some t
        previousTimestampIndex := some i } := by
  unfold timeUpdate; rw [h]
  simp only [h2]

lemma timeUpdate_pos_pos (s : AuditState) (i : ℕ) (p : Point) (t pt : ℤ)
    (pp : ℝ × ℝ) (h : p.time = some t) (h2 : s.previousTimestampMs = some pt)
    (h3 : 0 < t - pt) (h4 : s.previousPoint = some pp)
    (h5 : 0 < haversineDistance pp.1 pp.2 p.lat p.lon) :
    timeUpdate s i p =
      { s with
        timestampedPointsCount := s.timestampedPointsCount + 1
        consecutiveTimestampPairsCount := s.consecutiveTimestampPairsCount + 1
        positiveTimeDeltasCollected := s.positiveTimeDeltasCollected + 1
        timeDeltasMs := s.timeDeltasMs ++ [t - pt]
        hasTimeProgression := true
        distanceDeltasMTimeConditioned :=
          s.distanceDeltasMTimeConditioned ++
            [haversineDistance pp.1 pp.2 p.lat p.lon]
        previousTimestampMs := some t
        previousTimestampIndex := some i } := by
  unfold timeUpdate; rw [h]
  simp only [h2, if_pos h3, h4, if_pos h5]

lemma timeUpdate_pos_nonpos (s : AuditState) (i : ℕ) (p : Point) (t pt : ℤ)
    (pp : ℝ × ℝ) (h : p.time = some t) (h2 : s.previousTimestampMs = some pt)
    (h3 : 0 < t - pt) (h4 : s.previousPoint = some pp)
    (h5 : ¬ 0 < haversineDistance pp.1 pp.2 p.lat p.lon) :
    timeUpdate s i p =
      { s with
        timestampedPointsCount := s.timestampedPointsCount + 1
        consecutiveTimestampPairsCount := s.consecutiveTimestampPairsCount + 1
        positiveTimeDeltasCollected := s.positiveTimeDeltasCollected + 1
        timeDeltasMs := s.timeDeltasMs ++ [t - pt]
        hasTimeProgression := true
        previousTimestampMs := some t
        previousTimestampIndex := some i } := by
  unfold timeUpdate; rw [h]
  simp only [h2, if_pos h3, h4, if_neg h5]

lemma timeUpdate_pos_noprev (s : AuditState) (i : ℕ) (p : Point) (t pt : ℤ)
    (h : p.time = some t) (h2 : s.previousTimestampMs = some pt)
    (h3 : 0 < t - pt) (h4 : s.previousPoint = none) :
    timeUpdate s i p =
      { s with
        timestampedPointsCount := s.timestampedPointsCount + 1
        consecutiveTimestampPairsCount := s.consecutiveTimestampPairsCount + 1
        positiveTimeDeltasCollected := s.positiveTimeDeltasCollected + 1
        timeDeltasMs := s.timeDeltasMs ++ [t - pt]
        hasTimeProgression := true
        previousTimestampMs := some t
        previousTimestampIndex := some i } := by
  unfold timeUpdate; rw [h]
  simp only [h2, if_pos h3, h4]

lemma timeUpdate_rejected (s : AuditState) (i : ℕ) (p : Point) (t pt : ℤ)
    (h : p.time = some t) (h2 : s.previousTimestampMs = some pt)
    (h3 : ¬ 0 < t - pt) :
    timeUpdate s i p =
      { s with
        timestampedPointsCount := s.timestampedPointsCount + 1
        consecutiveTimestampPairsCount := s.consecutiveTimestampPairsCount + 1
        rejectedTimestampPairsDeltaLeqZero :=
          s.rejectedTimestampPairsDeltaLeqZero + 1
        nonPositiveTimeDeltaEvents :=
          s.nonPositiveTimeDeltaEvents ++
            [NPEvent.mk i s.previousTimestampIndex (t - pt)]
        previousTimestampMs := some t
        previousTimestampIndex := some i } := by
  unfold timeUpdate; rw [h]
  simp only [h2, if_neg h3]

lemma auditStep_eq (s : AuditState) (i : ℕ) (p : Point) :
    auditStep s i p =
      { timeUpdate (geomUpdate s p) i p with previousPoint := some (p.lat, p.lon) } :=
  rfl

lemma auditRun_nil (i : ℕ) (s : AuditState) : auditRun i s [] = s := rfl

lemma auditRun_cons (i : ℕ) (s : AuditState) (p : Point) (rest : List Point) :
    auditRun i s (p :: rest) = auditRun (i + 1) (auditStep s i p) rest := rfl

lemma auditRun_append (l1 l2 : List Point) :
    ∀ (i : ℕ) (s : AuditState),
      auditRun i s (l1 ++ l2) = auditRun (i + l1.length) (auditRun i s l1) l2 := by
  induction l1 with
  | nil => intro i s; simp [auditRun_nil]
  | cons p rest ih =>
    intro i s
    simp only [List.cons_append, auditRun_cons, List.length_cons]
    rw [ih]
    congr 1
    omega

/-- Fields of the primary state not touched by `geomUpdate`. -/
lemma geomUpdate_time_fields (s : AuditState) (p : Point) :
    (geomUpdate s p).timeDeltasMs = s.timeDeltasMs ∧
    (geomUpdate s p).distanceDeltasMTimeConditioned = s.distanceDeltasMTimeConditioned ∧
    (geomUpdate s p).previousTimestampMs = s.previousTimestampMs ∧
    (geomUpdate s p).previousPoint = s.previousPoint ∧
    (geomUpdate s p).hasTimeProgression = s.hasTimeProgression ∧
    (geomUpdate s p).timestampedPointsCount = s.timestampedPointsCount ∧
    (geomUpdate s p).consecutiveTimestampPairsCount = s.consecutiveTimestampPairsCount ∧
    (geomUpdate s p).positiveTimeDeltasCollected = s.positiveTimeDeltasCollected ∧
    (geomUpdate s p).rejectedTimestampPairsDeltaLeqZero = s.rejectedTimestampPairsDeltaLeqZero ∧
    (geomUpdate s p).nonPositiveTimeDeltaEvents = s.nonPositiveTimeDeltaEvents ∧
    (geomUpdate s p).previousTimestampIndex = s.previousTimestampIndex := by
  rcases hpp : s.previousPoint with _ | pp
  · rw [geomUpdate_none s p hpp]
    exact ⟨rfl, rfl, rfl, hpp, rfl, rfl, rfl, rfl, rfl, rfl, rfl⟩
  · by_cases hd : 0 < haversineDistance pp.1 pp.2 p.lat p.lon
    · rw [geomUpdate_pos s p pp hpp hd]
      exact ⟨rfl, rfl, rfl, hpp, rfl, rfl, rfl, rfl, rfl, rfl, rfl⟩
    · rw [geomUpdate_nonpos s p pp hpp hd]
      exact ⟨rfl, rfl, rfl, hpp, rfl, rfl, rfl, rfl, rfl, rfl, rfl⟩

/-- Fields of the primary state not touched by `timeUpdate`. -/
lemma timeUpdate_geom_fields (s : AuditState) (i : ℕ) (p : Point) :
    (timeUpdate s i p).distanceDeltasMGeometryOnly = s.distanceDeltasMGeometryOnly ∧
    (timeUpdate s i p).previousPoint = s.previousPoint ∧
    (timeUpdate s i p).consecutivePointPairsConsidered = s.consecutivePointPairsConsidered ∧
    (timeUpdate s i p).rejectedDistanceInvalidOrZero = s.rejectedDistanceInvalidOrZero := by
  rcases ht : p.time with _ | t
  · rw [timeUpdate_none s i p ht]
    exact ⟨rfl, rfl, rfl, rfl⟩
  · rcases hpt : s.previousTimestampMs with _ | pt
    · rw [timeUpdate_first s i p t ht hpt]
      exact ⟨rfl, rfl, rfl, rfl⟩
    · by_cases h3 : 0 < t - pt
      · rcases hpp : s.previousPoint with _ | pp
        · rw [timeUpdate_pos_noprev s i p t pt ht hpt h3 hpp]
          exact ⟨rfl, hpp, rfl, rfl⟩
        · by_cases h5 : 0 < haversineDistance pp.1 pp.2 p.lat p.lon
          · rw [timeUpdate_pos_pos s i p t pt pp ht hpt h3 hpp h5]
            exact ⟨rfl, hpp, rfl, rfl⟩
          · rw [timeUpdate_pos_nonpos s i p t pt pp ht hpt h3 hpp h5]
            exact ⟨rfl, hpp, rfl, rfl⟩
      · rw [timeUpdate_rejected s i p t pt ht hpt h3]
        exact ⟨rfl, rfl, rfl, rfl⟩

/-! ### Invariants of the primary pass -/

/-- Time-block invariants in one package: the progression flag tracks
non-emptiness of the time-delta series, both stored series stay positive,
stored plus rejected timestamp pairs account for all pairs, and the
rejection counter tracks the event log. -/
lemma timeUpdate_invs (s : AuditState) (i : ℕ) (p : Point)
    (h1 : s.hasTimeProgression = true ↔ s.timeDeltasMs ≠ [])
    (h2 : ∀ x ∈ s.timeDeltasMs, 0 < x)
    (h4 : ∀ x ∈ s.distanceDeltasMTimeConditioned, 0 < x)
    (h6 : s.timeDeltasMs.length + s.rejectedTimestampPairsDeltaLeqZero =
      s.consecutiveTimestampPairsCount)
    (h9 : s.rejectedTimestampPairsDeltaLeqZero =
      s.nonPositiveTimeDeltaEvents.length) :
    ((timeUpdate s i p).hasTimeProgression = true ↔
        (timeUpdate s i p).timeDeltasMs ≠ []) ∧
    (∀ x ∈ (timeUpdate s i p).timeDeltasMs, 0 < x) ∧
    (∀ x ∈ (timeUpdate s i p).distanceDeltasMTimeConditioned, 0 < x) ∧
    ((timeUpdate s i p).timeDeltasMs.length +
        (timeUpdate s i p).rejectedTimestampPairsDeltaLeqZero =
      (timeUpdate s i p).consecutiveTimestampPairsCount) ∧
    ((timeUpdate s i p).rejectedTimestampPairsDeltaLeqZero =
      (timeUpdate s i p).nonPositiveTimeDeltaEvents.length) := by
  rcases ht : p.time with _ | t
  · rw [timeUpdate_none s i p ht]
    exact ⟨h1, h2, h4, h6, h9⟩
  · rcases hpt : s.previousTimestampMs with _ | pt
    · rw [timeUpdate_first s i p t ht hpt]
      exact ⟨h1, h2, h4, h6, h9⟩
    · by_cases h3 : 0 < t - pt
      · rcases hpp : s.previousPoint with _ | pp
        · rw [timeUpdate_pos_noprev s i p t pt ht hpt h3 hpp]
          refine ⟨by simp, ?_, h4, ?_, h9⟩
          · intro x hx
            rcases List.mem_append.mp hx with hx | hx
            · exact h2 x hx
            · rw [List.mem_singleton.mp hx]; exact h3
          · simp only [List.length_append, List.length_singleton]
            omega
        · by_cases h5 : 0 < haversineDistance pp.1 pp.2 p.lat p.lon
          · rw [timeUpdate_pos_pos s i p t pt pp ht hpt h3 hpp h5]
            refine ⟨by simp, ?_, ?_, ?_, h9⟩
            · intro x hx
              rcases List.mem_append.mp hx with hx | hx
              · exact h2 x hx
              · rw [List.mem_singleton.mp hx]; exact h3
            · intro x hx
              rcases List.mem_append.mp hx with hx | hx
              · exact h4 x hx
              · rw [List.mem_singleton.mp hx]; exact h5
            · simp only [List.length_append, List.length_singleton]
              omega
          · rw [timeUpdate_pos_nonpos s i p t pt pp ht hpt h3 hpp h5]
            refine ⟨by simp, ?_, h4, ?_, h9⟩
            · intro x hx
              rcases List.mem_append.mp hx with hx | hx
              · exact h2 x hx
              · rw [List.mem_singleton.mp hx]; exact h3
            · simp only [List.length_append, List.length_singleton]
              omega
      · rw [timeUpdate_rejected s i p t pt ht hpt h3]
        refine ⟨h1, h2, h4, ?_, ?_⟩
        · simp only []
          omega
        · simp only [List.length_append, List.length_singleton]
          omega

/-- Geometry-block invariants: the geometry-only series stays positive and
stored plus rejected pairs account for all pairs considered. -/
lemma geomUpdate_invs (s : AuditState) (p : Point)
    (h3 : ∀ x ∈ s.distanceDeltasMGeometryOnly, 0 < x)
    (h5 : s.distanceDeltasMGeometryOnly.length + s.rejectedDistanceInvalidOrZero =
      s.consecutivePointPairsConsidered) :
    (∀ x ∈ (geomUpdate s p).distanceDeltasMGeometryOnly, 0 < x) ∧
    ((geomUpdate s p).distanceDeltasMGeometryOnly.length +
        (geomUpdate s p).rejectedDistanceInvalidOrZero =
      (geomUpdate s p).consecutivePointPairsConsidered) := by
  rcases hpp : s.previousPoint with _ | pp
  · rw [geomUpdate_none s p hpp]
    exact ⟨h3, h5⟩
  · by_cases hd : 0 < haversineDistance pp.1 pp.2 p.lat p.lon
    · rw [geomUpdate_pos s p pp hpp hd]
      refine ⟨?_, ?_⟩
      · intro x hx
        rcases List.mem_append.mp hx with hx | hx
        · exact h3 x hx
        · rw [List.mem_singleton.mp hx]; exact hd
      · simp only [List.length_append, List.length_singleton]
        omega
    · rw [geomUpdate_nonpos s p pp hpp hd]
      refine ⟨h3, ?_⟩
      simp only []
      omega

/-- The combined state invariant of the primary pass used by the claims. -/
def AuditInv (s : AuditState) : Prop :=
  (s.hasTimeProgression = true ↔ s.timeDeltasMs ≠ []) ∧
  (∀ x ∈ s.timeDeltasMs, 0 < x) ∧
  (∀ x ∈ s.distanceDeltasMGeometryOnly, 0 < x) ∧
  (∀ x ∈ s.distanceDeltasMTimeConditioned, 0 < x) ∧
  (s.distanceDeltasMGeometryOnly.length + s.rejectedDistanceInvalidOrZero =
    s.consecutivePointPairsConsidered) ∧
  (s.timeDeltasMs.length + s.rejectedTimestampPairsDeltaLeqZero =
    s.consecutiveTimestampPairsCount) ∧
  (s.previousTimestampMs.isSome = true → s.previousPoint.isSome = true) ∧
  (s.timeDeltasMs.length ≤
    s.distanceDeltasMTimeConditioned.length + s.rejectedDistanceInvalidOrZero) ∧
  (s.rejectedTimestampPairsDeltaLeqZero = s.nonPositiveTimeDeltaEvents.length)

/-- Cross-block accounting: each stored time delta comes with either a
stored time-conditioned distance or a distance rejection counted by the
geometry block of the same iteration. -/
lemma auditStep_A8 (s : AuditState) (i : ℕ) (p : Point)
    (h7 : s.previousTimestampMs.isSome = true → s.previousPoint.isSome = true)
    (h8 : s.timeDeltasMs.length ≤
      s.distanceDeltasMTimeConditioned.length + s.rejectedDistanceInvalidOrZero) :
    (auditStep s i p).timeDeltasMs.length ≤
      (auditStep s i p).distanceDeltasMTimeConditioned.length +
        (auditStep s i p).rejectedDistanceInvalidOrZero := by
  show (timeUpdate (geomUpdate s p) i p).timeDeltasMs.length ≤
      (timeUpdate (geomUpdate s p) i p).distanceDeltasMTimeConditioned.length +
        (timeUpdate (geomUpdate s p) i p).rejectedDistanceInvalidOrZero
  have hg := geomUpdate_time_fields s p
  have hgt := timeUpdate_geom_fields (geomUpdate s p) i p
  rcases hpp : s.previousPoint with _ | pp
  · -- no previous point: the geometry block is a no-op and a previous
    -- timestamp cannot exist either
    rw [geomUpdate_none s p hpp]
    rcases ht : p.time with _ | t
    · rw [timeUpdate_none s i p ht]; exact h8
    · rcases hpt : s.previousTimestampMs with _ | pt
      · rw [timeUpdate_first s i p t ht hpt]; exact h8
      · exact absurd (h7 (by rw [hpt]; rfl)) (by rw [hpp]; simp)
  · by_cases hd : 0 < haversineDistance pp.1 pp.2 p.lat p.lon
    · rw [geomUpdate_pos s p pp hpp hd]
      set sg := { s with
        consecutivePointPairsConsidered := s.consecutivePointPairsConsidered + 1
        distanceDeltasMGeometryOnly :=
          s.distanceDeltasMGeometryOnly ++
            [haversineDistance pp.1 pp.2 p.lat p.lon] } with hsg
      have hgpp : sg.previousPoint = some pp := hpp
      rcases ht : p.time with _ | t
      · rw [timeUpdate_none sg i p ht]; exact h8
      · rcases hpt : s.previousTimestampMs with _ | pt
        · rw [timeUpdate_first sg i p t ht hpt]; exact h8
        · by_cases h3 : 0 < t - pt
          · rw [timeUpdate_pos_pos sg i p t pt pp ht hpt h3 hgpp hd]
            simp only [List.length_append, List.length_singleton]
            omega
          · rw [timeUpdate_rejected sg i p t pt ht hpt h3]; exact h8
    · rw [geomUpdate_nonpos s p pp hpp hd]
      set sg := { s with
        consecutivePointPairsConsidered := s.consecutivePointPairsConsidered + 1
        rejectedDistanceInvalidOrZero := s.rejectedDistanceInvalidOrZero + 1 } with hsg
      have hgpp : sg.previousPoint = some pp := hpp
      rcases ht : p.time with _ | t
      · rw [timeUpdate_none sg i p ht]
        show s.timeDeltasMs.length ≤
          s.distanceDeltasMTimeConditioned.length +
            (s.rejectedDistanceInvalidOrZero + 1)
        omega
      · rcases hpt : s.previousTimestampMs with _ | pt
        · rw [timeUpdate_first sg i p t ht hpt]
          show s.timeDeltasMs.length ≤
            s.distanceDeltasMTimeConditioned.length +
              (s.rejectedDistanceInvalidOrZero + 1)
          omega
        · by_cases h3 : 0 < t - pt
          · rw [timeUpdate_pos_nonpos sg i p t pt pp ht hpt h3 hgpp hd]
            simp only [List.length_append, List.length_singleton]
            omega
          · rw [timeUpdate_rejected sg i p t pt ht hpt h3]
            show s.timeDeltasMs.length ≤
              s.distanceDeltasMTimeConditioned.length +
                (s.rejectedDistanceInvalidOrZero + 1)
            omega

/-- One primary-loop iteration preserves the combined invariant. -/
lemma auditStep_inv (s : AuditState) (i : ℕ) (p : Point) (h : AuditInv s) :
    AuditInv (auditStep s i p) := by
  obtain ⟨h1, h2, h3, h4, h5, h6, h7, h8, h9⟩ := h
  have hg := geomUpdate_time_fields s p
  obtain ⟨hgA, hgB, hgC, hgD, hgE, hgF, hgG, hgH, hgI, hgJ, hgK⟩ := hg
  have hgeo := geomUpdate_invs s p h3 h5
  have htime := timeUpdate_invs (geomUpdate s p) i p
    (by rw [hgE, hgA]; exact h1) (by rw [hgA]; exact h2) (by rw [hgB]; exact h4)
    (by rw [hgA, hgI, hgG]; exact h6) (by rw [hgI, hgJ]; exact h9)
  have hgt := timeUpdate_geom_fields (geomUpdate s p) i p
  have hstep8 := auditStep_A8 s i p h7 h8
  refine ⟨htime.1, htime.2.1, ?_, htime.2.2.1, ?_, htime.2.2.2.1, ?_, hstep8, htime.2.2.2.2⟩
  · show ∀ x ∈ (timeUpdate (geomUpdate s p) i p).distanceDeltasMGeometryOnly, 0 < x
    rw [hgt.1]; exact hgeo.1
  · show (timeUpdate (geomUpdate s p) i p).distanceDeltasMGeometryOnly.length +
        (timeUpdate (geomUpdate s p) i p).rejectedDistanceInvalidOrZero =
      (timeUpdate (geomUpdate s p) i p).consecutivePointPairsConsidered
    rw [hgt.1, hgt.2.2.1, hgt.2.2.2]; exact hgeo.2
  · intro _
    rfl

/-- The primary loop preserves any property preserved by its body. -/
lemma auditRun_inv {P : AuditState → Prop}
    (hstep : ∀ s i p, P s → P (auditStep s i p)) :
    ∀ (l : List Point) (i : ℕ) (s : AuditState), P s → P (auditRun i s l) := by
  intro l
  induction l with
  | nil => intro i s h; exact h
  | cons p rest ih => intro i s h; exact ih (i + 1) _ (hstep s i p h)

/-- The combined invariant holds at the end of the primary pass. -/
lemma auditRun_full_inv (points : List Point) :
    AuditInv (auditRun 0 auditInit points) := by
  refine auditRun_inv auditStep_inv points 0 auditInit ?_
  refine ⟨by simp [auditInit], ?_, ?_, ?_, rfl, rfl, ?_, ?_, rfl⟩ <;>
    simp [auditInit]

/-- After any iteration the previous point is the current point. -/
lemma auditStep_prevPoint (s : AuditState) (i : ℕ) (p : Point) :
    (auditStep s i p).previousPoint = some (p.lat, p.lon) := rfl

/-- With a previous point present the iteration counts exactly one more
consecutive pair. -/
lemma auditStep_considered_some (s : AuditState) (i : ℕ) (p : Point)
    (pp : ℝ × ℝ) (h : s.previousPoint = some pp) :
    (auditStep s i p).consecutivePointPairsConsidered =
      s.consecutivePointPairsConsidered + 1 := by
  show (timeUpdate (geomUpdate s p) i p).consecutivePointPairsConsidered =
    s.consecutivePointPairsConsidered + 1
  rw [(timeUpdate_geom_fields (geomUpdate s p) i p).2.2.1]
  by_cases hd : 0 < haversineDistance pp.1 pp.2 p.lat p.lon
  · rw [geomUpdate_pos s p pp h hd]
  · rw [geomUpdate_nonpos s p pp h hd]

/-- On the very first iteration no consecutive pair is counted. -/
lemma auditStep_considered_none (s : AuditState) (i : ℕ) (p : Point)
    (h : s.previousPoint = none) :
    (auditStep s i p).consecutivePointPairsConsidered =
      s.consecutivePointPairsConsidered := by
  show (timeUpdate (geomUpdate s p) i p).consecutivePointPairsConsidered =
    s.consecutivePointPairsConsidered
  rw [(timeUpdate_geom_fields (geomUpdate s p) i p).2.2.1, geomUpdate_none s p h]

/-- Once a previous point exists, running the loop over `l` counts exactly
`l.length` further consecutive pairs. -/
lemma auditRun_considered (l : List Point) :
    ∀ (i : ℕ) (s : AuditState) (pp : ℝ × ℝ), s.previousPoint = some pp →
      (auditRun i s l).consecutivePointPairsConsidered =
        s.consecutivePointPairsConsidered + l.length := by
  induction l with
  | nil => intro i s pp _; simp [auditRun_nil]
  | cons p rest ih =>
    intro i s pp h
    rw [auditRun_cons,
      ih (i + 1) (auditStep s i p) (p.lat, p.lon) (auditStep_prevPoint s i p),
      auditStep_considered_some s i p pp h, List.length_cons]
    omega

/-! ### The claims about `auditSampling` -/

/-- C3: for every input point sequence, the `hasTimeProgression` flag of the
returned `AuditResult` is true exactly when the time-delta series
`timeDeltasMs` is non-empty. -/
theorem C3_hasTimeProgression_iff_timeDeltas_nonempty (points : List Point) :
    (auditSampling points).hasTimeProgression = true ↔
      (auditSampling points).timeDeltasMs ≠ [] :=
  (auditRun_full_inv points).1

/-- C4: the primary distance series of the returned `AuditResult` is the
time-conditioned series when `hasTimeProgression` is true and the
geometry-only series when it is false. -/
theorem C4_primary_distance_series_selection (points : List Point) :
    ((auditSampling points).hasTimeProgression = true →
      (auditSampling points).distanceDeltasM =
        (auditSampling points).distanceDeltasMTimeConditioned) ∧
    ((auditSampling points).hasTimeProgression = false →
      (auditSampling points).distanceDeltasM =
        (auditSampling points).distanceDeltasMGeometryOnly) := by
  constructor <;> intro h
  · show (if (auditRun 0 auditInit points).hasTimeProgression = true
        then (auditRun 0 auditInit points).distanceDeltasMTimeConditioned
        else (auditRun 0 auditInit points).distanceDeltasMGeometryOnly) =
      (auditRun 0 auditInit points).distanceDeltasMTimeConditioned
    have h' : (auditRun 0 auditInit points).hasTimeProgression = true := h
    rw [if_pos h']
  · show (if (auditRun 0 auditInit points).hasTimeProgression = true
        then (auditRun 0 auditInit points).distanceDeltasMTimeConditioned
        else (auditRun 0 auditInit points).distanceDeltasMGeometryOnly) =
      (auditRun 0 auditInit points).distanceDeltasMGeometryOnly
    have h' : (auditRun 0 auditInit points).hasTimeProgression = false := h
    rw [h']
    simp

/-- C5: every element of each delta series of the result (time deltas,
geometry-only distances, time-conditioned distances) is strictly positive
(finiteness is automatic in the real-number embedding), rejected candidates
are only counted: stored plus rejected values exhaust the candidate pairs
of the geometry block and of the timestamp block, and every positive-delta
pair whose time-conditioned distance candidate was dropped is accounted for
by the distance rejection counter of the same iteration. -/
theorem C5_delta_series_positive_rejections_counted (points : List Point) :
    (∀ x ∈ (auditSampling points).timeDeltasMs, 0 < x) ∧
    (∀ x ∈ (auditSampling points).distanceDeltasMGeometryOnly, 0 < x) ∧
    (∀ x ∈ (auditSampling points).distanceDeltasMTimeConditioned, 0 < x) ∧
    ((auditSampling points).distanceDeltasMGeometryOnly.length +
        (auditSampling points).rejectedDistanceInvalidOrZero =
      (auditSampling points).consecutivePointPairsConsidered) ∧
    ((auditSampling points).timeDeltasMs.length +
        (auditSampling points).rejectedTimestampPairsDeltaLeqZero =
      (auditRun 0 auditInit points).consecutiveTimestampPairsCount) ∧
    ((auditSampling points).timeDeltasMs.length ≤
      (auditSampling points).distanceDeltasMTimeConditioned.length +
        (auditSampling points).rejectedDistanceInvalidOrZero) := by
  obtain ⟨_, h2, h3, h4, h5, h6, _, h8, _⟩ := auditRun_full_inv points
  exact ⟨h2, h3, h4, h5, h6, h8⟩

/-- C9: the result counts exactly `max 0 (n - 1)` consecutive point pairs
for an `n`-point input, and each counted pair was either stored in the
geometry-only series or counted as a distance rejection. -/
theorem C9_consecutive_pairs_partition (points : List Point) :
    (auditSampling points).consecutivePointPairsConsidered =
      points.length - 1 ∧
    (auditSampling points).distanceDeltasMGeometryOnly.length +
        (auditSampling points).rejectedDistanceInvalidOrZero =
      (auditSampling points).consecutivePointPairsConsidered := by
  refine ⟨?_, (auditRun_full_inv points).2.2.2.2.1⟩
  show (auditRun 0 auditInit points).consecutivePointPairsConsidered =
    points.length - 1
  cases points with
  | nil => rfl
  | cons p rest =>
    rw [auditRun_cons,
      auditRun_considered rest 1 (auditStep auditInit 0 p) (p.lat, p.lon)
        (auditStep_prevPoint auditInit 0 p),
      auditStep_considered_none auditInit 0 p rfl, List.length_cons]
    show 0 + rest.length = rest.length + 1 - 1
    omega

/-! ### The non-positive-delta event log -/

/-- One iteration leaves the event log unchanged or appends exactly one
record carrying the current index. -/
lemma auditStep_events (s : AuditState) (i : ℕ) (p : Point) :
    (auditStep s i p).nonPositiveTimeDeltaEvents = s.nonPositiveTimeDeltaEvents ∨
    ∃ pi d, (auditStep s i p).nonPositiveTimeDeltaEvents =
      s.nonPositiveTimeDeltaEvents ++ [NPEvent.mk i pi d] := by
  have hg := geomUpdate_time_fields s p
  show (timeUpdate (geomUpdate s p) i p).nonPositiveTimeDeltaEvents =
      s.nonPositiveTimeDeltaEvents ∨ _
  set sg := geomUpdate s p with hsg
  have hJ : sg.nonPositiveTimeDeltaEvents = s.nonPositiveTimeDeltaEvents :=
    hg.2.2.2.2.2.2.2.2.2.1
  have hK : sg.previousTimestampIndex = s.previousTimestampIndex :=
    hg.2.2.2.2.2.2.2.2.2.2
  rcases ht : p.time with _ | t
  · left; rw [timeUpdate_none sg i p ht, hJ]
  · rcases hpt : sg.previousTimestampMs with _ | pt
    · left; rw [timeUpdate_first sg i p t ht hpt, hJ]
    · by_cases h3 : 0 < t - pt
      · rcases hpp : sg.previousPoint with _ | pp
        · left; rw [timeUpdate_pos_noprev sg i p t pt ht hpt h3 hpp, hJ]
        · by_cases h5 : 0 < haversineDistance pp.1 pp.2 p.lat p.lon
          · left; rw [timeUpdate_pos_pos sg i p t pt pp ht hpt h3 hpp h5, hJ]
          · left; rw [timeUpdate_pos_nonpos sg i p t pt pp ht hpt h3 hpp h5, hJ]
      · right
        refine ⟨s.previousTimestampIndex, t - pt, ?_⟩
        show (timeUpdate sg i p).nonPositiveTimeDeltaEvents = _
        rw [timeUpdate_rejected sg i p t pt ht hpt h3, hJ, hK]

/-- A timestamped point always becomes the new timestamp anchor. -/
lemma auditStep_ts_anchor (s : AuditState) (i : ℕ) (p : Point) (t : ℤ)
    (h : p.time = some t) :
    (auditStep s i p).previousTimestampMs = some t ∧
    (auditStep s i p).previousTimestampIndex = some i := by
  show (timeUpdate (geomUpdate s p) i p).previousTimestampMs = some t ∧
    (timeUpdate (geomUpdate s p) i p).previousTimestampIndex = some i
  set sg := geomUpdate s p with hsg
  rcases hpt : sg.previousTimestampMs with _ | pt
  · rw [timeUpdate_first sg i p t h hpt]
    exact ⟨rfl, rfl⟩
  · by_cases h3 : 0 < t - pt
    · rcases hpp : sg.previousPoint with _ | pp
      · rw [timeUpdate_pos_noprev sg i p t pt h hpt h3 hpp]; exact ⟨rfl, rfl⟩
      · by_cases h5 : 0 < haversineDistance pp.1 pp.2 p.lat p.lon
        · rw [timeUpdate_pos_pos sg i p t pt pp h hpt h3 hpp h5]; exact ⟨rfl, rfl⟩
        · rw [timeUpdate_pos_nonpos sg i p t pt pp h hpt h3 hpp h5]; exact ⟨rfl, rfl⟩
    · rw [timeUpdate_rejected sg i p t pt h hpt h3]; exact ⟨rfl, rfl⟩

/-- A timestamped point whose timestamp equals the anchor timestamp is
rejected: one event with delta `0` is logged and the time-delta series is
untouched. -/
lemma auditStep_equal_ts (s : AuditState) (i : ℕ) (p : Point) (t : ℤ)
    (h : p.time = some t) (h2 : s.previousTimestampMs = some t) :
    (auditStep s i p).nonPositiveTimeDeltaEvents =
      s.nonPositiveTimeDeltaEvents ++
        [NPEvent.mk i s.previousTimestampIndex 0] ∧
    (auditStep s i p).timeDeltasMs = s.timeDeltasMs := by
  have hg := geomUpdate_time_fields s p
  show (timeUpdate (geomUpdate s p) i p).nonPositiveTimeDeltaEvents = _ ∧
    (timeUpdate (geomUpdate s p) i p).timeDeltasMs = _
  set sg := geomUpdate s p with hsg
  have hpt : sg.previousTimestampMs = some t := by
    rw [hg.2.2.1]; exact h2
  have h3 : ¬ 0 < t - t := by simp
  rw [timeUpdate_rejected sg i p t t h hpt h3]
  refine ⟨?_, hg.1⟩
  rw [hg.2.2.2.2.2.2.2.2.2.1, hg.2.2.2.2.2.2.2.2.2.2]
  simp

/-- Events appended while running the loop from index `j` carry indices
at least `j`. -/
lemma auditRun_events_suffix :
    ∀ (l : List Point) (j : ℕ) (s : AuditState),
      ∃ tl, (auditRun j s l).nonPositiveTimeDeltaEvents =
          s.nonPositiveTimeDeltaEvents ++ tl ∧ ∀ e ∈ tl, j ≤ e.index := by
  intro l
  induction l with
  | nil =>
    intro j s
    exact ⟨[], by simp [auditRun_nil], by intro e he; exact absurd he (List.not_mem_nil e)⟩
  | cons p rest ih =>
    intro j s
    obtain ⟨tl, htl, hb⟩ := ih (j + 1) (auditStep s j p)
    rcases auditStep_events s j p with he | ⟨pi, d, he⟩
    · refine ⟨tl, ?_, ?_⟩
      · rw [auditRun_cons, htl, he]
      · intro e hm; have := hb e hm; omega
    · refine ⟨NPEvent.mk j pi d :: tl, ?_, ?_⟩
      · rw [auditRun_cons, htl, he, List.append_assoc, List.singleton_append]
      · intro e hm
        rcases List.mem_cons.mp hm with hm | hm
        · rw [hm]
        · have := hb e hm; omega

/-- Events present after running the loop over `l` from index `j` carry
indices below `j + l.length`, provided the incoming events already did. -/
lemma auditRun_events_ub :
    ∀ (l : List Point) (j : ℕ) (s : AuditState),
      (∀ e ∈ s.nonPositiveTimeDeltaEvents, e.index < j) →
      ∀ e ∈ (auditRun j s l).nonPositiveTimeDeltaEvents, e.index < j + l.length := by
  intro l
  induction l with
  | nil =>
    intro j s h e he
    have := h e he
    simpa using this
  | cons p rest ih =>
    intro j s h e he
    rw [auditRun_cons] at he
    have hstep : ∀ e' ∈ (auditStep s j p).nonPositiveTimeDeltaEvents,
        e'.index < j + 1 := by
      intro e' he'
      rcases auditStep_events s j p with hev | ⟨pi, d, hev⟩
      · rw [hev] at he'; have := h e' he'; omega
      · rw [hev] at he'
        rcases List.mem_append.mp he' with hm | hm
        · have := h e' hm; omega
        · rw [List.mem_singleton.mp hm]
          exact Nat.lt_succ_self j
    have := ih (j + 1) (auditStep s j p) hstep e he
    simp only [List.length_cons]
    omega

/-- C8: a pair of consecutive points carrying identical parseable
timestamps contributes no element to the time-delta series; it is logged
exactly once, as the event `{index = i+1, prevIndex = i, delta = 0}`, and
the rejection counter equals the event-log length, so the pair increments
`rejectedTimestampPairsDeltaLeqZero` exactly once. -/
theorem C8_equal_consecutive_timestamps_rejected_once
    (l1 l2 : List Point) (p q : Point) (i : ℕ) (t : ℤ)
    (hl : l1.length = i) (hp : p.time = some t) (hq : q.time = some t) :
    NPEvent.mk (i + 1) (some i) 0 ∈
      (auditSampling (l1 ++ p :: q :: l2)).nonPositiveTimeDeltaEvents ∧
    ((auditSampling (l1 ++ p :: q :: l2)).nonPositiveTimeDeltaEvents).count
      (NPEvent.mk (i + 1) (some i) 0) = 1 ∧
    (auditSampling (l1 ++ p :: q :: l2)).rejectedTimestampPairsDeltaLeqZero =
      (auditSampling (l1 ++ p :: q :: l2)).nonPositiveTimeDeltaEvents.length ∧
    (0 : ℤ) ∉ (auditSampling (l1 ++ p :: q :: l2)).timeDeltasMs := by
  have hrun : auditRun 0 auditInit (l1 ++ p :: q :: l2) =
      auditRun (i + 2)
        (auditStep (auditStep (auditRun 0 auditInit l1) i p) (i + 1) q) l2 := by
    rw [auditRun_append l1 (p :: q :: l2) 0 auditInit, auditRun_cons,
      auditRun_cons, hl, Nat.zero_add]
  set sA := auditRun 0 auditInit l1 with hsA
  set sB := auditStep sA i p with hsB
  set sC := auditStep sB (i + 1) q with hsC
  have hanchor := auditStep_ts_anchor sA i p t hp
  have hreject := auditStep_equal_ts sB (i + 1) q t hq hanchor.1
  have hCev : sC.nonPositiveTimeDeltaEvents =
      sB.nonPositiveTimeDeltaEvents ++ [NPEvent.mk (i + 1) (some i) 0] := by
    rw [hsC, hreject.1, hanchor.2]
  have hAub : ∀ e ∈ sA.nonPositiveTimeDeltaEvents, e.index < i := by
    intro e he
    have h0 : ∀ e ∈ auditInit.nonPositiveTimeDeltaEvents, e.index < 0 := by
      intro e he; exact absurd he (List.not_mem_nil e)
    have := auditRun_events_ub l1 0 auditInit h0 e he
    omega
  have hBub : ∀ e ∈ sB.nonPositiveTimeDeltaEvents, e.index < i + 1 := by
    intro e he
    rw [hsB] at he
    rcases auditStep_events sA i p with hev | ⟨pi, d, hev⟩
    · rw [hev] at he
      have := hAub e he; omega
    · rw [hev] at he
      rcases List.mem_append.mp he with hm | hm
      · have := hAub e hm; omega
      · rw [List.mem_singleton.mp hm]
        exact Nat.lt_succ_self i
  obtain ⟨tl, htl, htlb⟩ := auditRun_events_suffix l2 (i + 2) sC
  have hfin : (auditRun 0 auditInit (l1 ++ p :: q :: l2)).nonPositiveTimeDeltaEvents =
      (sB.nonPositiveTimeDeltaEvents ++ [NPEvent.mk (i + 1) (some i) 0]) ++ tl := by
    rw [hrun]
    rw [← hsB, ← hsC] at *
    rw [htl, hCev]
  have hmem : NPEvent.mk (i + 1) (some i) 0 ∈
      (auditRun 0 auditInit (l1 ++ p :: q :: l2)).nonPositiveTimeDeltaEvents := by
    rw [hfin]; simp
  have hnotB : NPEvent.mk (i + 1) (some i) 0 ∉ sB.nonPositiveTimeDeltaEvents := by
    intro hm
    have h' : i + 1 < i + 1 := hBub _ hm
    omega
  have hnotTl : NPEvent.mk (i + 1) (some i) 0 ∉ tl := by
    intro hm
    have h' : i + 2 ≤ i + 1 := htlb _ hm
    omega
  have hcount : ((auditRun 0 auditInit (l1 ++ p :: q :: l2)).nonPositiveTimeDeltaEvents).count
      (NPEvent.mk (i + 1) (some i) 0) = 1 := by
    rw [hfin, List.count_append, List.count_append,
      List.count_eq_zero.mpr hnotB, List.count_eq_zero.mpr hnotTl]
    simp
  have hinv := auditRun_full_inv (l1 ++ p :: q :: l2)
  refine ⟨hmem, hcount, hinv.2.2.2.2.2.2.2.2, ?_⟩
  intro h0
  have := hinv.2.1 0 h0
  omega

/-- Witness for C8 at a two-point input whose points carry the same
parseable timestamp. -/
theorem C8_witness :
    ([] : List Point).length = 0 ∧
    (Point.mk 0 0 (some 5)).time = some 5 ∧
    (Point.mk 0 1 (some 5)).time = some 5 ∧
    (NPEvent.mk 1 (some 0) 0 ∈
      (auditSampling ([] ++ Point.mk 0 0 (some 5) :: Point.mk 0 1 (some 5) :: [])).nonPositiveTimeDeltaEvents ∧
    ((auditSampling ([] ++ Point.mk 0 0 (some 5) :: Point.mk 0 1 (some 5) :: [])).nonPositiveTimeDeltaEvents).count
      (NPEvent.mk 1 (some 0) 0) = 1 ∧
    (auditSampling ([] ++ Point.mk 0 0 (some 5) :: Point.mk 0 1 (some 5) :: [])).rejectedTimestampPairsDeltaLeqZero =
      (auditSampling ([] ++ Point.mk 0 0 (some 5) :: Point.mk 0 1 (some 5) :: [])).nonPositiveTimeDeltaEvents.length ∧
    (0 : ℤ) ∉ (auditSampling ([] ++ Point.mk 0 0 (some 5) :: Point.mk 0 1 (some 5) :: [])).timeDeltasMs) :=
  ⟨rfl, rfl, rfl,
    C8_equal_consecutive_timestamps_rejected_once [] [] (Point.mk 0 0 (some 5))
      (Point.mk 0 1 (some 5)) 0 5 rfl rfl rfl⟩

/-! ### The joint time-distance pass -/

lemma jointRun_nil (s : JointState) : jointRun s [] = s := rfl

lemma jointRun_cons (s : JointState) (p : Point) (rest : List Point) :
    jointRun s (p :: rest) = jointRun (jointStep s p) rest := rfl

/-- One joint-pass iteration leaves the pair list unchanged or appends one
pair with positive `dtSec` and positive `ddMeters`. -/
lemma jointStep_pairs (s : JointState) (p : Point) :
    (jointStep s p).timeDistancePairs = s.timeDistancePairs ∨
    ∃ dt dd, 0 < dt ∧ 0 < dd ∧
      (jointStep s p).timeDistancePairs =
        s.timeDistancePairs ++ [TDPair.mk dt dd] := by
  rcases hpp : s.prevPoint with _ | pp <;> rcases ht : p.time with _ | t <;>
    rcases hpt : s.prevTimestampMs with _ | pt <;>
    simp only [jointStep, hpp, ht, hpt, Option.isSome_none, Option.isSome_some,
      Bool.false_eq_true, if_false, if_true, ite_true, ite_false]
  · exact Or.inl trivial
  · exact Or.inl trivial
  · exact Or.inl trivial
  · exact Or.inl trivial
  · exact Or.inl trivial
  · exact Or.inl trivial
  · exact Or.inl trivial
  · split_ifs with h1 h2 h3
    · right
      exact ⟨((t - pt : ℤ) : ℝ) / 1000,
        haversineDistance pp.1 pp.2 p.lat p.lon, h1.1, h1.2, rfl⟩
    · left; rfl
    · left; rfl
    · left; rfl
    · left; rfl

/-- A timestamped point always becomes the joint-pass anchor. -/
lemma jointStep_prev_some (s : JointState) (p : Point) (t : ℤ)
    (h : p.time = some t) :
    (jointStep s p).prevPoint = some (p.lat, p.lon) ∧
    (jointStep s p).prevTimestampMs = some t := by
  simp [jointStep, h]

/-- A point without a parseable timestamp leaves the joint-pass anchor
unchanged. -/
lemma jointStep_prev_none (s : JointState) (p : Point) (h : p.time = none) :
    (jointStep s p).prevPoint = s.prevPoint ∧
    (jointStep s p).prevTimestampMs = s.prevTimestampMs := by
  rcases hpp : s.prevPoint with _ | pp <;>
    simp [jointStep, h, hpp]

/-- Pairs stored by the joint pass have positive `dtSec` and positive
`ddMeters`. -/
lemma jointRun_pairs_pos :
    ∀ (l : List Point) (s : JointState),
      (∀ pr ∈ s.timeDistancePairs, 0 < pr.dtSec ∧ 0 < pr.ddMeters) →
      ∀ pr ∈ (jointRun s l).timeDistancePairs, 0 < pr.dtSec ∧ 0 < pr.ddMeters := by
  intro l
  induction l with
  | nil => intro s h; exact h
  | cons p rest ih =>
    intro s h
    rw [jointRun_cons]
    refine ih (jointStep s p) ?_
    rcases jointStep_pairs s p with he | ⟨dt, dd, hdt, hdd, he⟩
    · rw [he]; exact h
    · rw [he]
      intro pr hpr
      rcases List.mem_append.mp hpr with hm | hm
      · exact h pr hm
      · rw [List.mem_singleton.mp hm]
        exact ⟨hdt, hdd⟩

/-- Modelled from the spec's wording for the amended claim: the most recent
point of the list that carries a parseable timestamp (the "preceding
timestamped point" of the source's anchor convention). -/
def specLastTimestamped : List Point → Option Point
  | [] => none
  | p :: rest =>
    match specLastTimestamped rest with
    | some q => some q
    | none => if p.time.isSome then some p else none

/-- The joint-pass anchor after traversing `l` is exactly the most recent
timestamped point of `l` (its coordinates and parsed timestamp),
independently of iteration-order adjacency; without any timestamped point
the anchor is untouched. -/
lemma jointRun_anchor :
    ∀ (l : List Point) (s : JointState),
      ((jointRun s l).prevPoint, (jointRun s l).prevTimestampMs) =
        match specLastTimestamped l with
        | some q => (some (q.lat, q.lon), q.time)
        | none => (s.prevPoint, s.prevTimestampMs) := by
  intro l
  induction l with
  | nil => intro s; rfl
  | cons p rest ih =>
    intro s
    rw [jointRun_cons]
    rcases hrest : specLastTimestamped rest with _ | q
    · simp only [specLastTimestamped, hrest]
      rcases ht : p.time with _ | t
      · have hprev := jointStep_prev_none s p ht
        have := ih (jointStep s p)
        rw [hrest] at this
        simp only [ht, Option.isSome_none, Bool.false_eq_true, if_false]
        rw [this, hprev.1, hprev.2]
      · have hprev := jointStep_prev_some s p t ht
        have := ih (jointStep s p)
        rw [hrest] at this
        simp only [ht, Option.isSome_some, if_true]
        rw [this, hprev.1, hprev.2]
    · have := ih (jointStep s p)
      rw [hrest] at this
      simp only [specLastTimestamped, hrest]
      rw [this]

/-- C2 (amended): in the joint-pair pass a `TimeDistancePair` is gated on
both the current point and the joint-pass anchor carrying valid timestamps,
where the anchor is the most recent preceding timestamped point — not the
iteration-order predecessor — and the pair is kept only with `dtSec > 0`
and a finite distance `> 0`: every stored pair is positive in both
components, and the anchor after any traversal is exactly the most recent
timestamped point seen, regardless of adjacency. -/
theorem C2_amended_joint_pass_anchor_semantics (points : List Point) :
    (∀ pr ∈ (auditSampling points).timeDistancePairs,
      0 < pr.dtSec ∧ 0 < pr.ddMeters) ∧
    (∀ s : JointState,
      ((jointRun s points).prevPoint, (jointRun s points).prevTimestampMs) =
        match specLastTimestamped points with
        | some q => (some (q.lat, q.lon), q.time)
        | none => (s.prevPoint, s.prevTimestampMs)) := by
  constructor
  · intro pr hpr
    have hsel : (auditSampling points).timeDistancePairs =
        (if (auditRun 0 auditInit points).hasTimeProgression = true
          then jointRun jointInit points else jointInit).timeDistancePairs := rfl
    cases hb : (auditRun 0 auditInit points).hasTimeProgression with
    | false =>
      rw [hsel, hb] at hpr
      simp only [Bool.false_eq_true, if_false] at hpr
      exact absurd hpr (List.not_mem_nil pr)
    | true =>
      rw [hsel, hb] at hpr
      simp only [if_true] at hpr
      refine jointRun_pairs_pos points jointInit ?_ pr hpr
      intro pr' hpr'
      exact absurd hpr' (List.not_mem_nil pr')
  · intro s
    exact jointRun_anchor points s

/-! ### Concrete haversine values on the equator -/

/-- Two equator points 90 degrees of longitude apart are a quarter
half-circumference apart. -/
lemma haversineDistance_equator_90 (lon1 lon2 : ℝ) (h : lon2 - lon1 = 90) :
    haversineDistance 0 lon1 0 lon2 = 6371000 * (Real.pi / 2) := by
  simp only [haversineDistance]
  have h1 : ((0 : ℝ) - 0) * Real.pi / 180 / 2 = 0 := by ring
  have h2 : (0 : ℝ) * Real.pi / 180 = 0 := by ring
  have h3 : (lon2 - lon1) * Real.pi / 180 / 2 = Real.pi / 4 := by rw [h]; ring
  rw [h1, h2, h3, Real.sin_zero, Real.cos_zero, Real.sin_pi_div_four]
  have h4 : (0 : ℝ) * 0 + 1 * 1 * (Real.sqrt 2 / 2) * (Real.sqrt 2 / 2) = 1 / 2 := by
    have : Real.sqrt 2 * Real.sqrt 2 = 2 :=
      Real.mul_self_sqrt (by norm_num : (0 : ℝ) ≤ 2)
    nlinarith [this]
  rw [h4]
  have h5 : (1 : ℝ) - 1 / 2 = 1 / 2 := by norm_num
  rw [h5]
  have hpos : 0 < Real.sqrt (1 / 2) := Real.sqrt_pos.mpr (by norm_num)
  have h6 : atan2 (Real.sqrt (1 / 2)) (Real.sqrt (1 / 2)) = Real.pi / 4 := by
    unfold atan2
    rw [if_pos hpos, div_self (ne_of_gt hpos), Real.arctan_one]
  rw [h6]
  ring

/-- Two equator points 180 degrees of longitude apart are half a
circumference apart. -/
lemma haversineDistance_equator_180 (lon1 lon2 : ℝ) (h : lon2 - lon1 = 180) :
    haversineDistance 0 lon1 0 lon2 = 6371000 * Real.pi := by
  simp only [haversineDistance]
  have h1 : ((0 : ℝ) - 0) * Real.pi / 180 / 2 = 0 := by ring
  have h2 : (0 : ℝ) * Real.pi / 180 = 0 := by ring
  have h3 : (lon2 - lon1) * Real.pi / 180 / 2 = Real.pi / 2 := by rw [h]; ring
  rw [h1, h2, h3, Real.sin_zero, Real.cos_zero, Real.sin_pi_div_two]
  have h4 : (0 : ℝ) * 0 + 1 * 1 * 1 * 1 = 1 := by norm_num
  rw [h4]
  have h5 : (1 : ℝ) - 1 = 0 := by norm_num
  rw [h5, Real.sqrt_one, Real.sqrt_zero]
  have h6 : atan2 1 0 = Real.pi / 2 := by
    unfold atan2
    rw [if_neg (lt_irrefl (0 : ℝ)), if_neg (lt_irrefl (0 : ℝ)),
      if_pos (one_pos : (0 : ℝ) < 1)]
  rw [h6]
  ring

/-! ### A concrete run: timestamped, untimestamped, timestamped -/

/-- Three points on the equator; only the first and third carry parseable
timestamps, and they are not adjacent. -/
def c2pts : List Point :=
  [Point.mk 0 0 (some 0), Point.mk 0 90 none, Point.mk 0 180 (some 2000)]

lemma c2_dist_01_pos : 0 < haversineDistance 0 0 0 90 := by
  rw [haversineDistance_equator_90 0 90 (by norm_num)]
  positivity

lemma c2_dist_12_pos : 0 < haversineDistance 0 90 0 180 := by
  rw [haversineDistance_equator_90 90 180 (by norm_num)]
  positivity

lemma c2_dist_02_pos : 0 < haversineDistance 0 0 0 180 := by
  rw [haversineDistance_equator_180 0 180 (by norm_num)]
  positivity

/-- State after auditing the first concrete point. -/
def c2S1 : AuditState :=
  AuditState.mk [] [] [] (some 0) (some (0, 0)) false 1 0 0 0 [] 0 0 (some 0)

/-- State after auditing the second concrete point. -/
noncomputable def c2S2 : AuditState :=
  AuditState.mk [] [] [haversineDistance 0 0 0 90] (some 0) (some (0, 90))
    false 1 0 0 0 [] 1 0 (some 0)

/-- State after auditing the third concrete point. -/
noncomputable def c2S3 : AuditState :=
  AuditState.mk [2000] [haversineDistance 0 90 0 180]
    [haversineDistance 0 0 0 90, haversineDistance 0 90 0 180]
    (some 2000) (some (0, 180)) true 2 1 1 0 [] 2 0 (some 2)

lemma c2_s1 : auditStep auditInit 0 (Point.mk 0 0 (some 0)) = c2S1 := by
  simp only [auditStep, geomUpdate, timeUpdate, auditInit, c2S1]

lemma c2_s2 : auditStep c2S1 1 (Point.mk 0 90 none) = c2S2 := by
  simp only [auditStep, geomUpdate, timeUpdate, c2S1, c2S2,
    if_pos c2_dist_01_pos]
  norm_num

lemma c2_s3 : auditStep c2S2 2 (Point.mk 0 180 (some 2000)) = c2S3 := by
  simp only [auditStep, geomUpdate, timeUpdate, c2S2, c2S3,
    if_pos c2_dist_12_pos,
    if_pos (show (0 : ℤ) < 2000 - 0 by norm_num)]
  norm_num

lemma c2_primary : auditRun 0 auditInit c2pts = c2S3 := by
  show auditRun 0 auditInit
    [Point.mk 0 0 (some 0), Point.mk 0 90 none, Point.mk 0 180 (some 2000)] = _
  rw [auditRun_cons, c2_s1, auditRun_cons, c2_s2, auditRun_cons, c2_s3,
    auditRun_nil]

/-- Joint state after the first concrete point. -/
def c2J1 : JointState := JointState.mk [] (some (0, 0)) (some 0) 0 0 0 0 0 0

/-- Joint state after the second concrete point. -/
def c2J2 : JointState := JointState.mk [] (some (0, 0)) (some 0) 1 0 1 0 0 0

/-- Joint state after the third concrete point: one pair, anchored at the
first point. -/
noncomputable def c2J3 : JointState :=
  JointState.mk [TDPair.mk 2 (haversineDistance 0 0 0 180)]
    (some (0, 180)) (some 2000) 2 1 1 0 0 1

lemma c2_j1 : jointStep jointInit (Point.mk 0 0 (some 0)) = c2J1 := by
  simp [jointStep, jointInit, c2J1]

lemma c2_j2 : jointStep c2J1 (Point.mk 0 90 none) = c2J2 := by
  simp [jointStep, c2J1, c2J2]

lemma c2_j3 : jointStep c2J2 (Point.mk 0 180 (some 2000)) = c2J3 := by
  have hdt : (0 : ℝ) < ((2000 - 0 : ℤ) : ℝ) / 1000 := by norm_num
  simp only [jointStep, c2J2, c2J3, Option.isSome_some, if_true]
  split_ifs with h1 h2 h3
  · norm_num
  all_goals exact absurd ⟨hdt, c2_dist_02_pos⟩ h1

lemma c2_joint : jointRun jointInit c2pts = c2J3 := by
  show jointRun jointInit
    [Point.mk 0 0 (some 0), Point.mk 0 90 none, Point.mk 0 180 (some 2000)] = _
  rw [jointRun_cons, c2_j1, jointRun_cons, c2_j2, jointRun_cons, c2_j3,
    jointRun_nil]

lemma c2_result_flag : (auditSampling c2pts).hasTimeProgression = true := by
  show (auditRun 0 auditInit c2pts).hasTimeProgression = true
  rw [c2_primary]
  rfl

lemma c2_result_timeDeltas : (auditSampling c2pts).timeDeltasMs = [2000] := by
  show (auditRun 0 auditInit c2pts).timeDeltasMs = [2000]
  rw [c2_primary]
  rfl

lemma c2_result_pairs : (auditSampling c2pts).timeDistancePairs =
    [TDPair.mk 2 (6371000 * Real.pi)] := by
  have hflag : (auditRun 0 auditInit c2pts).hasTimeProgression = true := by
    rw [c2_primary]
    rfl
  show (if (auditRun 0 auditInit c2pts).hasTimeProgression = true
      then jointRun jointInit c2pts else jointInit).timeDistancePairs = _
  rw [if_pos hflag, c2_joint]
  simp only [c2J3]
  rw [haversineDistance_equator_180 0 180 (by norm_num)]

/-- Counterexample to C2: in `c2pts` the only timestamped points are the
first and the third, so no point has a timestamped iteration-order
predecessor and under the claim the joint pass could produce no pair at
all; the code nevertheless produces the pair
`(dtSec = 2, ddMeters = 6371000·π)` joining point 2 with point 0, across
the untimestamped point 1. -/
theorem C2_counterexample :
    (c2pts.getD 0 default).time = some 0 ∧
    (c2pts.getD 1 default).time = none ∧
    (c2pts.getD 2 default).time = some 2000 ∧
    c2pts.length = 3 ∧
    (auditSampling c2pts).timeDistancePairs =
      [TDPair.mk 2 (6371000 * Real.pi)] :=
  ⟨rfl, rfl, rfl, rfl, c2_result_pairs⟩

/-- Witness for the amended C2 at the concrete run: the produced pair is
positive in both components. -/
theorem C2_witness :
    TDPair.mk 2 (6371000 * Real.pi) ∈ (auditSampling c2pts).timeDistancePairs ∧
    0 < (TDPair.mk 2 (6371000 * Real.pi)).dtSec ∧
    0 < (TDPair.mk 2 (6371000 * Real.pi)).ddMeters := by
  have hmem : TDPair.mk 2 (6371000 * Real.pi) ∈
      (auditSampling c2pts).timeDistancePairs := by
    rw [c2_result_pairs]
    exact List.mem_singleton_self _
  exact ⟨hmem, (C2_amended_joint_pass_anchor_semantics c2pts).1 _ hmem⟩

/-- Witness for C4: the concrete run has time progression and its primary
distance series is the time-conditioned one. -/
theorem C4_witness :
    (auditSampling c2pts).hasTimeProgression = true ∧
    (auditSampling c2pts).distanceDeltasM =
      (auditSampling c2pts).distanceDeltasMTimeConditioned :=
  ⟨c2_result_flag,
    (C4_primary_distance_series_selection c2pts).1 c2_result_flag⟩

/-- Witness for C5: a concrete stored time delta is positive. -/
theorem C5_witness :
    (2000 : ℤ) ∈ (auditSampling c2pts).timeDeltasMs ∧ (0 : ℤ) < 2000 := by
  have hmem : (2000 : ℤ) ∈ (auditSampling c2pts).timeDeltasMs := by
    rw [c2_result_timeDeltas]
    exact List.mem_singleton_self _
  exact ⟨hmem,
    (C5_delta_series_positive_rejections_counted c2pts).1 2000 hmem⟩

/-! ### The density estimator -/

lemma validOf_eq_of_all_pos (data : List ℝ) (h : ∀ x ∈ data, 0 < x) :
    validOf data = data := by
  refine List.filter_eq_self.mpr ?_
  intro x hx
  simpa using h x hx

lemma foldl_min_le_init : ∀ (xs : List ℝ) (x : ℝ), xs.foldl min x ≤ x := by
  intro xs
  induction xs with
  | nil => intro x; exact le_refl x
  | cons a xs ih =>
    intro x
    exact le_trans (ih (min x a)) (min_le_left x a)

lemma init_le_foldl_max : ∀ (xs : List ℝ) (x : ℝ), x ≤ xs.foldl max x := by
  intro xs
  induction xs with
  | nil => intro x; exact le_refl x
  | cons a xs ih =>
    intro x
    exact le_trans (le_max_left x a) (ih (max x a))

lemma listMin_le_listMax (l : List ℝ) (h : l ≠ []) : listMin l ≤ listMax l := by
  cases l with
  | nil => exact absurd rfl h
  | cons x xs =>
    exact le_trans (foldl_min_le_init xs x) (init_le_foldl_max xs x)

/-- The grid bounds are ordered whenever any valid datum exists. -/
lemma logMinOf_le_logMaxOf (data : List ℝ) (hne : validOf data ≠ []) :
    logMinOf data ≤ logMaxOf data := by
  refine listMin_le_listMax _ ?_
  simpa using hne

/-- Unfolding `computeKDE` past its emptiness guard. -/
lemma computeKDE_eq (data : List ℝ) (h : ℝ) (m : ℕ)
    (hne : validOf data ≠ []) :
    computeKDE data h m = (List.range m).map (fun (i : ℕ) =>
      let xLog : Option ℝ :=
        if m = 1 then none
        else some (logMinOf data +
          (logMaxOf data - logMinOf data) * ((i : ℝ) / ((m : ℝ) - 1)))
      let density : Option ℝ := xLog.map (fun xl =>
        (1 / ((((validOf data).map Real.log).length : ℝ) * h *
            Real.sqrt (2 * Real.pi))) *
          (((validOf data).map Real.log).foldl (fun acc dj =>
            let u := (xl - dj) / h
            acc + Real.exp (-(0.5) * u * u)) 0))
      { xLog := xLog, xLinear := xLog.map Real.exp, y := density }) := by
  have hlen : ¬ (validOf data).length = 0 := by
    simpa using hne
  simp only [computeKDE, logMinOf, logMaxOf]
  rw [if_neg hlen]

lemma getD_map_range (m i : ℕ) (hi : i < m) (f : ℕ → KDEPoint) :
    ((List.range m).map f).getD i default = f i := by
  rw [List.getD_eq_getElem?_getD, List.getElem?_map, List.getElem?_range hi]
  rfl

/-- C6 (amended): for a grid resolution `m ≥ 2` and an input with at least
one positive finite value, the curve has exactly `m` points whose `xLog`
grid is `xMin + (xMax - xMin)·(i/(m-1))`: non-decreasing, evenly spaced,
spanning exactly `[min(ln data), max(ln data)]` with no padding, and
`xLinear_i = exp(xLog_i)` at every point.  (An input with no positive
finite value yields the empty curve instead, and `m = 1` yields a NaN
grid position: both degeneracies contradict the claim as stated.) -/
theorem C6_amended_kde_grid (data : List ℝ) (h : ℝ) (m : ℕ)
    (hm : 2 ≤ m) (hne : validOf data ≠ []) :
    (computeKDE data h m).length = m ∧
    (∀ i, i < m →
      ((computeKDE data h m).getD i default).xLog =
        some (logMinOf data +
          (logMaxOf data - logMinOf data) * ((i : ℝ) / ((m : ℝ) - 1))) ∧
      ((computeKDE data h m).getD i default).xLinear =
        some (Real.exp (logMinOf data +
          (logMaxOf data - logMinOf data) * ((i : ℝ) / ((m : ℝ) - 1))))) ∧
    (∀ i j : ℕ, i ≤ j →
      logMinOf data +
        (logMaxOf data - logMinOf data) * ((i : ℝ) / ((m : ℝ) - 1)) ≤
      logMinOf data +
        (logMaxOf data - logMinOf data) * ((j : ℝ) / ((m : ℝ) - 1))) ∧
    (∀ i : ℕ,
      (logMinOf data +
        (logMaxOf data - logMinOf data) * (((i + 1 : ℕ) : ℝ) / ((m : ℝ) - 1))) -
      (logMinOf data +
        (logMaxOf data - logMinOf data) * ((i : ℝ) / ((m : ℝ) - 1))) =
      (logMaxOf data - logMinOf data) / ((m : ℝ) - 1)) ∧
    (logMinOf data +
      (logMaxOf data - logMinOf data) * (((0 : ℕ) : ℝ) / ((m : ℝ) - 1)) =
      logMinOf data) ∧
    (logMinOf data +
      (logMaxOf data - logMinOf data) * (((m - 1 : ℕ) : ℝ) / ((m : ℝ) - 1)) =
      logMaxOf data) := by
  have hd : (0 : ℝ) < (m : ℝ) - 1 := by
    have : (2 : ℝ) ≤ (m : ℝ) := by exact_mod_cast hm
    linarith
  have hd0 : (m : ℝ) - 1 ≠ 0 := ne_of_gt hd
  have hmm : logMinOf data ≤ logMaxOf data := logMinOf_le_logMaxOf data hne
  have hm1 : m ≠ 1 := by omega
  refine ⟨?_, ?_, ?_, ?_, ?_, ?_⟩
  · rw [computeKDE_eq data h m hne]
    simp
  · intro i hi
    rw [computeKDE_eq data h m hne, getD_map_range m i hi]
    simp [if_neg hm1]
  · intro i j hij
    apply add_le_add_left
    apply mul_le_mul_of_nonneg_left _ (sub_nonneg.mpr hmm)
    apply div_le_div_of_nonneg_right ?_ hd.le
    exact_mod_cast hij
  · intro i
    push_cast
    field_simp
    ring
  · simp
  · have hcast : ((m - 1 : ℕ) : ℝ) = (m : ℝ) - 1 := by
      have : 1 ≤ m := by omega
      push_cast [this]
      ring
    rw [hcast, div_self hd0]
    ring

/-- Counterexample to C6 as stated: an input series with no positive finite
value (here the empty series) yields an empty curve, not a curve of `m`
points. -/
theorem C6_counterexample : (computeKDE [] 1 200).length ≠ 200 := by
  have : validOf [] = [] := rfl
  simp [computeKDE, this]

/-- Witness for the amended C6 at the default resolution. -/
theorem C6_witness :
    2 ≤ 200 ∧ validOf [(1 : ℝ), 2] ≠ [] ∧
    (computeKDE [(1 : ℝ), 2] 1 200).length = 200 := by
  have hv : validOf [(1 : ℝ), 2] = [1, 2] := by
    apply validOf_eq_of_all_pos
    intro x hx
    rcases List.mem_cons.mp hx with hx | hx
    · rw [hx]; norm_num
    · rw [List.mem_singleton.mp hx]; norm_num
  refine ⟨by norm_num, by rw [hv]; simp, ?_⟩
  exact (C6_amended_kde_grid [(1 : ℝ), 2] 1 200 (by norm_num)
    (by rw [hv]; simp)).1

/-- C1 (amended): `computeKDE` performs no bandwidth validation: for any
`h ≤ 0` and any input with at least one positive finite value it still
returns a density curve with the full requested grid (there is no
`InvalidBandwidth` error path in the code). -/
theorem C1_amended_no_bandwidth_validation (data : List ℝ) (h : ℝ) (m : ℕ)
    (_hh : h ≤ 0) (hne : validOf data ≠ []) :
    (computeKDE data h m).length = m := by
  rw [computeKDE_eq data h m hne]
  simp

/-- Counterexample to C1 as stated: at bandwidth `-1 ≤ 0` and data `[1]`,
`computeKDE` returns a five-point density curve instead of failing. -/
theorem C1_counterexample :
    ((-1 : ℝ) ≤ 0) ∧ (computeKDE [1] (-1) 5).length = 5 := by
  have hv : validOf [(1 : ℝ)] = [1] := by
    apply validOf_eq_of_all_pos
    intro x hx
    rw [List.mem_singleton.mp hx]; norm_num
  refine ⟨by norm_num, ?_⟩
  rw [computeKDE_eq [1] (-1) 5 (by rw [hv]; simp)]
  simp

/-- Witness for the amended C1. -/
theorem C1_witness :
    ((-1 : ℝ) ≤ 0) ∧ validOf [(1 : ℝ)] ≠ [] ∧
    (computeKDE [1] (-1) 5).length = 5 := by
  have hv : validOf [(1 : ℝ)] = [1] := by
    apply validOf_eq_of_all_pos
    intro x hx
    rw [List.mem_singleton.mp hx]; norm_num
  exact ⟨by norm_num, by rw [hv]; simp,
    C1_amended_no_bandwidth_validation [1] (-1) 5 (by norm_num)
      (by rw [hv]; simp)⟩

/-- C10: with `numPoints = 1` and any input containing a positive finite
value, the curve is a single point whose `xLog` and `xLinear` (and hence
density) are NaN, because the grid position divides by `numPoints - 1 = 0`
(`0 / 0` is NaN, modelled as `none`). -/
theorem C10_single_grid_point_is_nan (data : List ℝ) (h : ℝ)
    (hne : validOf data ≠ []) :
    computeKDE data h 1 = [KDEPoint.mk none none none] := by
  rw [computeKDE_eq data h 1 hne]
  simp

/-- Witness for C10 at the concrete input `[2]`. -/
theorem C10_witness :
    validOf [(2 : ℝ)] ≠ [] ∧
    computeKDE [(2 : ℝ)] 1 1 = [KDEPoint.mk none none none] := by
  have hv : validOf [(2 : ℝ)] = [2] := by
    apply validOf_eq_of_all_pos
    intro x hx
    rw [List.mem_singleton.mp hx]; norm_num
  exact ⟨by rw [hv]; simp,
    C10_single_grid_point_is_nan [(2 : ℝ)] 1 (by rw [hv]; simp)⟩

/-- The five-point curve with `y = [1, 3, 1, 2, 1]` from the spec's peak
example. -/
def c7curve : List KDEPoint :=
  [KDEPoint.mk (some 0) (some 0) (some 1), KDEPoint.mk (some 1) (some 1) (some 3),
   KDEPoint.mk (some 2) (some 2) (some 1), KDEPoint.mk (some 3) (some 3) (some 2),
   KDEPoint.mk (some 4) (some 4) (some 1)]

/-- C7: `detectPeaks` returns exactly the interior strict local maxima
(`1 ≤ i ≤ m-2` with `y_{i-1} < y_i` and `y_{i+1} < y_i`), boundary indices
are never peaks, any curve shorter than 3 points yields no peaks, and on
`y = [1,3,1,2,1]` exactly the peaks at index 1 (value 3) and index 3
(value 2) are returned. -/
theorem C7_detectPeaks_exact :
    (∀ (c : List KDEPoint) (q : KDEPoint),
      q ∈ detectPeaks c ↔ ∃ i, 1 ≤ i ∧ i + 1 < c.length ∧
        jsLtB (c.getD (i - 1) default).y (c.getD i default).y = true ∧
        jsLtB (c.getD (i + 1) default).y (c.getD i default).y = true ∧
        q = KDEPoint.mk (c.getD i default).xLog (c.getD i default).xLinear
          (c.getD i default).y) ∧
    (∀ c : List KDEPoint, c.length < 3 → detectPeaks c = []) ∧
    detectPeaks c7curve =
      [KDEPoint.mk (some 1) (some 1) (some 3),
       KDEPoint.mk (some 3) (some 3) (some 2)] := by
  have hshort : ∀ c : List KDEPoint, c.length < 3 → detectPeaks c = [] := by
    intro c hc
    unfold detectPeaks
    rw [if_pos hc]
  refine ⟨?_, hshort, ?_⟩
  · intro c q
    by_cases hc : c.length < 3
    · rw [hshort c hc]
      simp only [List.not_mem_nil, false_iff]
      rintro ⟨i, h1, h2, -, -, -⟩
      omega
    · unfold detectPeaks
      rw [if_neg hc]
      simp only [List.mem_map, List.mem_filter, List.mem_range'_1,
        Bool.and_eq_true]
      constructor
      · rintro ⟨i, ⟨⟨hi1, hi2⟩, hp1, hp2⟩, hq⟩
        exact ⟨i, hi1, by omega, hp1, hp2, hq.symm⟩
      · rintro ⟨i, hi1, hi2, hp1, hp2, hq⟩
        exact ⟨i, ⟨⟨hi1, by omega⟩, hp1, hp2⟩, hq.symm⟩
  · have h13 : jsLtB (some (1 : ℝ)) (some 3) = true := by
      simp [jsLtB]
    have h12 : jsLtB (some (1 : ℝ)) (some 2) = true := by
      simp [jsLtB]
    have h31 : jsLtB (some (3 : ℝ)) (some 1) = false := by
      norm_num [jsLtB]
    have h21 : jsLtB (some (2 : ℝ)) (some 1) = false := by
      norm_num [jsLtB]
    unfold detectPeaks
    rw [if_neg (by norm_num [c7curve])]
    have hr : List.range' 1 (c7curve.length - 2) = [1, 2, 3] := rfl
    rw [hr]
    norm_num [List.filter, c7curve, List.getD_cons_zero, List.getD_cons_succ,
      h13, h12, h31, h21]

/-- Witness for C7: a one-point curve is below the length-3 threshold and
yields no peaks, and the first claimed peak of the example curve is indeed
returned. -/
theorem C7_witness :
    ([KDEPoint.mk none none (some 1)] : List KDEPoint).length < 3 ∧
    detectPeaks [KDEPoint.mk none none (some 1)] = [] ∧
    KDEPoint.mk (some 1) (some 1) (some 3) ∈ detectPeaks c7curve :=
  ⟨by norm_num,
   C7_detectPeaks_exact.2.1 _ (by norm_num),
   by rw [C7_detectPeaks_exact.2.2]; exact List.mem_cons_self _ _⟩
